import Mathlib

/-!
Shallow embedding of the spdy per-stream session layer (src/spdy/util.go):
the frame model with its accessor surface, the bounded frame channel
(ChanFramer), half-stream bookkeeping, the receive and send validators,
the stream convenience operations, header merging, and the one-directional
frame relay (Copy).

Modelling conventions. Go errors are the inductive GoError; a nil Go error
is Option.none. Stateful methods become pure functions returning the new
state together with the returned error. A call that would block forever in
a sequential execution (channel send on a full buffer, receive on an empty
open buffer) is modelled as Option.none at the outermost layer. The frame
struct shapes (stream id, flags, control frame header, header map) follow
the accessor code in src/spdy/util.go; http.Header is an association list
from key to list of values, and http.Header.Add appends a value to the
list at a key.
-/

set_option autoImplicit false

namespace Spdy

/-- Header mapping: Go http.Header, a map from string key to list of string
values, embedded as an association list. -/
abbrev Headers := List (String × List String)

/-- Shared control-frame header embedded in every control frame variant;
only the flags field matters to this layer. -/
structure ControlFrameHeader where
  flags : Nat
  deriving DecidableEq

/-- Modelled from the spec: the fin bit of a control-frame flags field
("a per-frame bit requesting that the carrying direction close"); the
numeric constant lives in the framer file absent from src/. -/
def controlFlagFin : Nat := 1

/-- Modelled from the spec: the fin bit of a data-frame flags field. -/
def dataFlagFin : Nat := 1

/-- Modelled from the spec: the generic protocol-error status code, distinct
from the stream-already-closed code 9; the numeric constant lives in the
framer file absent from src/. -/
def protocolErrorCode : Nat := 1

/-- The closed set of frame variants: Data, SynStream, SynReply, Headers,
RstStream carry a stream id; Noop, Settings, Ping, GoAway are session
level. Field shapes follow the accessors in src/spdy/util.go. -/
inductive Frame where
  | data (streamId : Nat) (flags : Nat) (payload : List Nat)
  | synStream (cfHeader : ControlFrameHeader) (streamId : Nat) (hdrs : Headers)
  | synReply (cfHeader : ControlFrameHeader) (streamId : Nat) (hdrs : Headers)
  | headersFrame (cfHeader : ControlFrameHeader) (streamId : Nat) (hdrs : Headers)
  | rstStream (cfHeader : ControlFrameHeader) (streamId : Nat) (status : Nat)
  | noop (cfHeader : ControlFrameHeader)
  | settings (cfHeader : ControlFrameHeader)
  | ping (cfHeader : ControlFrameHeader)
  | goAway (cfHeader : ControlFrameHeader)
  deriving DecidableEq

/-- GetStreamId of src/spdy/util.go lines 19-27: the stored stream id, and
0 for the four session-level variants. -/
def Frame.getStreamId : Frame → Nat
  | .data sid _ _ => sid
  | .synStream _ sid _ => sid
  | .synReply _ sid _ => sid
  | .headersFrame _ sid _ => sid
  | .rstStream _ sid _ => sid
  | .noop _ => 0
  | .settings _ => 0
  | .ping _ => 0
  | .goAway _ => 0

/-- GetHeaders of src/spdy/util.go lines 29-37: the header mapping of
SynStream, SynReply and Headers frames; nil for every other variant. -/
def Frame.getHeaders : Frame → Option Headers
  | .synStream _ _ h => some h
  | .synReply _ _ h => some h
  | .headersFrame _ _ h => some h
  | _ => none

/-- GetFinFlag of src/spdy/util.go lines 39-47: the fin bit of the data
flags for Data frames, and the fin bit of the control-frame header flags
for every control variant, session-level ones included. -/
def Frame.getFinFlag : Frame → Bool
  | .data _ flags _ => (flags &&& dataFlagFin) != 0
  | .synStream cf _ _ => (cf.flags &&& controlFlagFin) != 0
  | .synReply cf _ _ => (cf.flags &&& controlFlagFin) != 0
  | .headersFrame cf _ _ => (cf.flags &&& controlFlagFin) != 0
  | .rstStream cf _ _ => (cf.flags &&& controlFlagFin) != 0
  | .noop cf => (cf.flags &&& controlFlagFin) != 0
  | .settings cf => (cf.flags &&& controlFlagFin) != 0
  | .ping cf => (cf.flags &&& controlFlagFin) != 0
  | .goAway cf => (cf.flags &&& controlFlagFin) != 0

/-- The Go type switch test frame.(*RstStreamFrame). -/
def Frame.isRst : Frame → Bool
  | .rstStream _ _ _ => true
  | _ => false

/-- Go error values used by this layer: io.EOF, the four errors.New
messages of the send validator, and an arbitrary terminal condition
(code n) that an external party may record on a channel. -/
inductive GoError where
  | eof
  | outputClosed
  | invalidSynStream
  | invalidSynReply
  | invalidFirstFrame
  | invalidFrameType
  | code (n : Nat)
  deriving DecidableEq

/-- http.Header.Add key value: append value to the list stored at key,
creating the entry when absent. -/
def headerAdd : Headers → String → String → Headers
  | [], key, v => [(key, [v])]
  | (k, vs) :: rest, key, v =>
    if k = key then (k, vs ++ [v]) :: rest else (k, vs) :: headerAdd rest key v

/-- Lookup of a header key; a Go map read yields the zero value (empty
list) for an absent key. -/
def headerGet : Headers → String → List String
  | [], _ => []
  | (k, vs) :: rest, key => if k = key then vs else headerGet rest key

/-- UpdateHeaders of src/spdy/util.go lines 149-155: for every key of
newHeaders, Add each of its values to headers in order. -/
def updateHeaders (headers newHeaders : Headers) : Headers :=
  newHeaders.foldl (fun acc kv => kv.2.foldl (fun acc2 v => headerAdd acc2 kv.1 v) acc) headers

/-- The hardcoded buffered-channel capacity of NewChanFramer. -/
def chanCapacity : Nat := 4096

/-- ChanFramer: the buffered channel is the queue list (front = next frame
to read); err is the one-shot terminal condition, none while the channel
is open. -/
structure ChanFramer where
  queue : List Frame
  err : Option GoError
  deriving DecidableEq

/-- ChanFramer.WriteFrame: return the terminal condition without enqueuing
once it is set; otherwise enqueue at the back. A send on a full buffer
blocks, modelled as none. -/
def ChanFramer.writeFrame (cf : ChanFramer) (f : Frame) : Option (ChanFramer × Option GoError) :=
  match cf.err with
  | some e => some (cf, some e)
  | none =>
    if cf.queue.length < chanCapacity then
      some ({ cf with queue := cf.queue ++ [f] }, none)
    else
      none

/-- ChanFramer.ReadFrame: dequeue from the front; on an empty buffer return
the terminal condition when it is set, otherwise block (none). -/
def ChanFramer.readFrame (cf : ChanFramer) : Option (ChanFramer × Option Frame × Option GoError) :=
  match cf.queue with
  | f :: rest => some ({ cf with queue := rest }, some f, none)
  | [] =>
    match cf.err with
    | some e => some (cf, none, some e)
    | none => none

/-- ChanFramer.Error: record the terminal condition, a no-op when one is
already recorded. -/
def ChanFramer.setError (cf : ChanFramer) (e : GoError) : ChanFramer :=
  if cf.err.isSome then cf else { cf with err := some e }

/-- ChanFramer.Close: record io.EOF as the terminal condition. -/
def ChanFramer.close (cf : ChanFramer) : ChanFramer :=
  cf.setError .eof

/-- ChanFramer.Closed: whether a terminal condition has been recorded. -/
def ChanFramer.isClosed (cf : ChanFramer) : Bool :=
  cf.err.isSome

/-- HalfStream: per-direction frame counter, accumulated headers and the
underlying channel. -/
structure HalfStream where
  chan : ChanFramer
  headers : Headers
  nFrames : Nat
  deriving DecidableEq

/-- NewHalfStream: fresh channel, empty headers, zero counter. -/
def newHalfStream : HalfStream :=
  { chan := { queue := [], err := none }, headers := [], nFrames := 0 }

/-- Stream: id, the immutable local flag, and the receive (input) and send
(output) halves. -/
structure Stream where
  id : Nat
  isLocal : Bool
  input : HalfStream
  output : HalfStream
  deriving DecidableEq

/-- NewStream id local. -/
def newStream (id : Nat) (loc : Bool) : Stream :=
  { id := id, isLocal := loc, input := newHalfStream, output := newHalfStream }

/-- Which half of a stream an operation acts on. -/
inductive Side where
  | input
  | output
  deriving DecidableEq

/-- The opposite direction. -/
def Side.other : Side → Side
  | .input => .output
  | .output => .input

/-- Read one half of a stream. -/
def Stream.getHalf (s : Stream) : Side → HalfStream
  | .input => s.input
  | .output => s.output

/-- Replace one half of a stream. -/
def Stream.setHalf (s : Stream) : Side → HalfStream → Stream
  | .input, h => { s with input := h }
  | .output, h => { s with output := h }

/-- Stream.Close: close the channels of both halves. -/
def Stream.close (s : Stream) : Stream :=
  { s with
    input := { s.input with chan := s.input.chan.close },
    output := { s.output with chan := s.output.chan.close } }

/-- HalfStream.WriteFrame of src/spdy/util.go lines 278-297, acting on the
sd half of stream s: enqueue on the channel (propagating its terminal
error without further effect), then increment the counter, close this half
when the fin flag is set, merge any carried headers, and close both halves
of the owning stream when the frame is a RstStream. -/
def halfWriteFrame (s : Stream) (sd : Side) (f : Frame) : Option (Stream × Option GoError) :=
  let h := s.getHalf sd
  match h.chan.writeFrame f with
  | none => none
  | some (ch2, some e) => some (s.setHalf sd { h with chan := ch2 }, some e)
  | some (ch2, none) =>
    let h2 : HalfStream := { h with chan := ch2, nFrames := h.nFrames + 1 }
    let h3 : HalfStream := if f.getFinFlag then { h2 with chan := h2.chan.close } else h2
    let h4 : HalfStream :=
      match f.getHeaders with
      | some nh => { h3 with headers := updateHeaders h3.headers nh }
      | none => h3
    let s2 := s.setHalf sd h4
    some (if f.isRst then s2.close else s2, none)

/-- StreamOutput.WriteFrame of src/spdy/util.go lines 363-389: local error
when the send half is closed; SynStream legal only as first frame of a
locally initiated stream; SynReply legal only as first frame of a remotely
initiated stream; Headers and Data legal only after a first frame; every
other variant rejected; on legality, admit via HalfStream.WriteFrame. -/
def streamOutputWriteFrame (s : Stream) (f : Frame) : Option (Stream × Option GoError) :=
  if s.output.chan.isClosed then some (s, some .outputClosed)
  else
    match f with
    | .synStream _ _ _ =>
      if (s.output.nFrames != 0) || !s.isLocal then some (s, some .invalidSynStream)
      else halfWriteFrame s .output f
    | .synReply _ _ _ =>
      if (s.output.nFrames != 0) || s.isLocal then some (s, some .invalidSynReply)
      else halfWriteFrame s .output f
    | .headersFrame _ _ _ =>
      if s.output.nFrames == 0 then some (s, some .invalidFirstFrame)
      else halfWriteFrame s .output f
    | .data _ _ _ =>
      if s.output.nFrames == 0 then some (s, some .invalidFirstFrame)
      else halfWriteFrame s .output f
    | _ => some (s, some .invalidFrameType)

/-- Stream.Rst of src/spdy/util.go lines 248-250: send a RstStreamFrame
with the given status through the send validator; the control-frame header
is the Go zero value. -/
def streamRst (s : Stream) (status : Nat) : Option (Stream × Option GoError) :=
  streamOutputWriteFrame s (.rstStream ⟨0⟩ s.id status)

/-- Stream.ProtocolError of src/spdy/util.go lines 252-254. -/
def streamProtocolError (s : Stream) : Option (Stream × Option GoError) :=
  streamRst s protocolErrorCode

/-- StreamInput.WriteFrame of src/spdy/util.go lines 305-355: on a closed
receive half, attempt Rst(9) for any non-Rst frame (discarding its result)
and return nil; otherwise check frame legality for the current state,
converting violations into a discarded ProtocolError attempt and a nil
return; legal frames are admitted via HalfStream.WriteFrame. -/
def streamInputWriteFrame (s : Stream) (f : Frame) : Option (Stream × Option GoError) :=
  if s.input.chan.isClosed then
    if f.isRst then some (s, none)
    else
      match streamRst s 9 with
      | some (s2, _) => some (s2, none)
      | none => none
  else
    match f with
    | .synStream _ _ _ =>
      if (s.input.nFrames != 0) || s.isLocal then
        match streamProtocolError s with
        | some (s2, _) => some (s2, none)
        | none => none
      else halfWriteFrame s .input f
    | .synReply _ _ _ =>
      if (s.input.nFrames != 0) || !s.isLocal then
        match streamProtocolError s with
        | some (s2, _) => some (s2, none)
        | none => none
      else halfWriteFrame s .input f
    | .headersFrame _ _ _ =>
      if s.input.nFrames == 0 then
        match streamProtocolError s with
        | some (s2, _) => some (s2, none)
        | none => none
      else halfWriteFrame s .input f
    | .data _ _ _ =>
      if s.input.nFrames == 0 then
        match streamProtocolError s with
        | some (s2, _) => some (s2, none)
        | none => none
      else halfWriteFrame s .input f
    | .rstStream _ _ _ => halfWriteFrame s .input f
    | _ =>
      match streamProtocolError s with
      | some (s2, _) => some (s2, none)
      | none => none

/-- Stream.Reply of src/spdy/util.go lines 206-219: substitute an empty
header mapping for nil headers, set the fin control flag when requested,
and send a SynReplyFrame through the send validator. -/
def streamReply (s : Stream) (hdrs : Option Headers) (fin : Bool) : Option (Stream × Option GoError) :=
  let h : Headers := match hdrs with | none => [] | some x => x
  let flags : Nat := if fin then controlFlagFin else 0
  streamOutputWriteFrame s (.synReply ⟨flags⟩ s.id h)

/-- Stream.Syn of src/spdy/util.go lines 221-234: substitute an empty
header mapping for nil headers, set the fin control flag when requested,
and send a SynStreamFrame through the send validator. -/
def streamSyn (s : Stream) (hdrs : Option Headers) (fin : Bool) : Option (Stream × Option GoError) :=
  let h : Headers := match hdrs with | none => [] | some x => x
  let flags : Nat := if fin then controlFlagFin else 0
  streamOutputWriteFrame s (.synStream ⟨flags⟩ s.id h)

/-- The legality condition of the receive validator on an open half,
read off the reject conditions of StreamInput.WriteFrame. -/
def inputLegal (s : Stream) (f : Frame) : Bool :=
  match f with
  | .synStream _ _ _ => !((s.input.nFrames != 0) || s.isLocal)
  | .synReply _ _ _ => !((s.input.nFrames != 0) || !s.isLocal)
  | .headersFrame _ _ _ => !(s.input.nFrames == 0)
  | .data _ _ _ => !(s.input.nFrames == 0)
  | .rstStream _ _ _ => true
  | _ => false

/-- The legality condition of the send validator on an open half, read off
the reject conditions of StreamOutput.WriteFrame. -/
def outputLegal (s : Stream) (f : Frame) : Bool :=
  match f with
  | .synStream _ _ _ => !((s.output.nFrames != 0) || !s.isLocal)
  | .synReply _ _ _ => !((s.output.nFrames != 0) || s.isLocal)
  | .headersFrame _ _ _ => !(s.output.nFrames == 0)
  | .data _ _ _ => !(s.output.nFrames == 0)
  | _ => false

/-- The frame kinds the send validator switch has a non-default case for:
OpenStream, Reply, Headers, Data. -/
def outputKindAllowed : Frame → Bool
  | .synStream _ _ _ => true
  | .synReply _ _ _ => true
  | .headersFrame _ _ _ => true
  | .data _ _ _ => true
  | _ => false

/-- Whether the receive validator admits the frame: the call returns nil
and the receive counter advances by one. -/
def inputAdmits (s : Stream) (f : Frame) : Bool :=
  match streamInputWriteFrame s f with
  | some (s2, none) => s2.input.nFrames == s.input.nFrames + 1
  | _ => false

/-- Whether the send validator admits the frame: the call returns nil and
the send counter advances by one. -/
def outputAdmits (s : Stream) (f : Frame) : Bool :=
  match streamOutputWriteFrame s f with
  | some (s2, none) => s2.output.nFrames == s.output.nFrames + 1
  | _ => false

/-- A scripted FrameWriter test double for Copy: responses lists the error
each successive WriteFrame call returns (past the end of the script every
call succeeds); written records every frame passed to WriteFrame. -/
structure ScriptWriter where
  responses : List (Option GoError)
  written : List Frame
  deriving DecidableEq

/-- One WriteFrame call on the scripted writer. -/
def ScriptWriter.write (w : ScriptWriter) (f : Frame) : ScriptWriter × Option GoError :=
  match w.responses with
  | [] => ({ w with written := w.written ++ [f] }, none)
  | r :: rest => ({ responses := rest, written := w.written ++ [f] }, r)

/-- Copy of src/spdy/util.go lines 97-115, run against a reader whose
ReadFrame calls yield the listed frames in order and then the terminal
condition forever: loop reading; on io.EOF return nil, on another error
return it; discard the frame when the writer is nil, otherwise WriteFrame
it and return immediately on a write error. -/
def Copy (w : Option ScriptWriter) : List Frame → GoError → Option ScriptWriter × Option GoError
  | [], term => (w, if term = .eof then none else some term)
  | f :: rest, term =>
    match w with
    | none => Copy none rest term
    | some sw =>
      match sw.write f with
      | (sw2, some e) => (some sw2, some e)
      | (sw2, none) => Copy (some sw2) rest term

/-! Helper lemmas shared by the claim theorems. -/

@[simp]
theorem getHalf_setHalf (s : Stream) (sd : Side) (h : HalfStream) :
    (s.setHalf sd h).getHalf sd = h := by
  cases sd <;> rfl

@[simp]
theorem getHalf_setHalf_other (s : Stream) (sd : Side) (h : HalfStream) :
    (s.setHalf sd h).getHalf sd.other = s.getHalf sd.other := by
  cases sd <;> rfl

@[simp]
theorem getHalf_input (s : Stream) : s.getHalf .input = s.input := rfl

@[simp]
theorem getHalf_output (s : Stream) : s.getHalf .output = s.output := rfl

@[simp]
theorem close_getHalf_nFrames (s : Stream) (sd : Side) :
    ((Stream.close s).getHalf sd).nFrames = (s.getHalf sd).nFrames := by
  cases sd <;> rfl

@[simp]
theorem close_getHalf_headers (s : Stream) (sd : Side) :
    ((Stream.close s).getHalf sd).headers = (s.getHalf sd).headers := by
  cases sd <;> rfl

@[simp]
theorem close_isClosed (cf : ChanFramer) : cf.close.isClosed = true := by
  unfold ChanFramer.close ChanFramer.setError ChanFramer.isClosed
  split <;> simp_all

@[simp]
theorem stream_close_input_isClosed (s : Stream) : (Stream.close s).input.chan.isClosed = true := by
  simp [Stream.close]

@[simp]
theorem stream_close_output_isClosed (s : Stream) : (Stream.close s).output.chan.isClosed = true := by
  simp [Stream.close]

/-- Stream.Rst never admits anything: the send validator either reports
the output closed or hits its catch-all, so the stream state is returned
untouched together with a non-nil error. -/
theorem rst_result (s : Stream) (c : Nat) :
    streamRst s c =
      some (s, some (if s.output.chan.isClosed then GoError.outputClosed else .invalidFrameType)) := by
  cases h : s.output.chan.isClosed <;> simp [streamRst, streamOutputWriteFrame, h]

/-- On an open half with spare capacity, HalfStream.WriteFrame succeeds and
advances the frame counter of that half by exactly one. -/
theorem halfWriteFrame_open (s : Stream) (sd : Side) (f : Frame)
    (he : (s.getHalf sd).chan.err = none)
    (hl : (s.getHalf sd).chan.queue.length < chanCapacity) :
    ∃ s2, halfWriteFrame s sd f = some (s2, none) ∧
      (s2.getHalf sd).nFrames = (s.getHalf sd).nFrames + 1 := by
  simp only [halfWriteFrame, ChanFramer.writeFrame, he, hl, if_pos]
  refine ⟨_, rfl, ?_⟩
  split
  · rw [close_getHalf_nFrames]
    split <;> split <;> simp
  · split <;> split <;> simp

/-- Writing to a half whose channel is open never returns an error. -/
theorem halfWriteFrame_open_no_error (s : Stream) (sd : Side) (f : Frame) (s2 : Stream)
    (e : Option GoError) (he : (s.getHalf sd).chan.err = none)
    (h : halfWriteFrame s sd f = some (s2, e)) : e = none := by
  simp only [halfWriteFrame, ChanFramer.writeFrame, he] at h
  split at h
  · simp at h
  · rename_i ch2 e2 heq
    split at heq <;> simp at heq
  · simp only [Option.some.injEq, Prod.mk.injEq] at h
    exact h.2.symm

theorem headerGet_add_same (h : Headers) (k v : String) :
    headerGet (headerAdd h k v) k = headerGet h k ++ [v] := by
  induction h with
  | nil => simp [headerAdd, headerGet]
  | cons kv rest ih =>
    obtain ⟨k1, vs⟩ := kv
    by_cases hk : k1 = k <;> simp [headerAdd, headerGet, hk, ih]

theorem headerGet_add_other (h : Headers) (k v key : String) (hne : k ≠ key) :
    headerGet (headerAdd h k v) key = headerGet h key := by
  induction h with
  | nil => simp [headerAdd, headerGet, hne]
  | cons kv rest ih =>
    obtain ⟨k1, vs⟩ := kv
    by_cases hk : k1 = k
    · subst hk
      simp [headerAdd, headerGet, hne]
    · simp [headerAdd, headerGet, hk, ih]

theorem headerGet_foldl_add (vs : List String) (h : Headers) (k key : String) :
    headerGet (vs.foldl (fun acc v => headerAdd acc k v) h) key =
      if k = key then headerGet h key ++ vs else headerGet h key := by
  induction vs generalizing h with
  | nil => split <;> simp
  | cons v vs ih =>
    rw [List.foldl_cons, ih]
    by_cases hk : k = key
    · subst hk
      simp [headerGet_add_same]
    · simp [hk, headerGet_add_other h k v key hk]

theorem headerGet_not_mem (h : Headers) (key : String) (hk : key ∉ h.map Prod.fst) :
    headerGet h key = [] := by
  induction h with
  | nil => rfl
  | cons kv rest ih =>
    obtain ⟨k1, vs⟩ := kv
    simp only [List.map_cons, List.mem_cons] at hk
    push_neg at hk
    have h1 : k1 ≠ key := fun heq => hk.1 heq.symm
    simp [headerGet, h1, ih hk.2]

theorem headerGet_updateHeaders (nh : Headers) (h : Headers) (key : String)
    (hnd : (nh.map Prod.fst).Nodup) :
    headerGet (updateHeaders h nh) key = headerGet h key ++ headerGet nh key := by
  induction nh generalizing h with
  | nil => simp [updateHeaders, headerGet]
  | cons kv rest ih =>
    obtain ⟨k, vs⟩ := kv
    simp only [List.map_cons, List.nodup_cons] at hnd
    have step : updateHeaders h ((k, vs) :: rest) =
        updateHeaders (vs.foldl (fun acc v => headerAdd acc k v) h) rest := by
      simp [updateHeaders]
    rw [step, ih _ hnd.2, headerGet_foldl_add]
    by_cases hk : k = key
    · subst hk
      have : headerGet rest k = [] := headerGet_not_mem rest k hnd.1
      simp [headerGet, this]
    · simp [headerGet, hk]

/-- Boolean helper: a negation equal to false. -/
theorem bool_not_false {a : Bool} (h : (!a) = false) : a = true := by
  cases a <;> simp_all

/-- Boolean helper: a negation equal to true. -/
theorem bool_not_true {a : Bool} (h : (!a) = true) : a = false := by
  cases a <;> simp_all

/-- On an open receive half, an illegal frame takes the drop path: the
ProtocolError attempt fails silently and the state comes back unchanged
with a nil error. -/
theorem input_drop (s : Stream) (f : Frame) (hcl : s.input.chan.isClosed = false)
    (hnl : inputLegal s f = false) :
    streamInputWriteFrame s f = some (s, none) := by
  cases f with
  | synStream cf sid hs =>
    simp only [inputLegal] at hnl
    have hc := bool_not_false hnl
    simp [streamInputWriteFrame, hcl, hc, streamProtocolError, rst_result]
  | synReply cf sid hs =>
    simp only [inputLegal] at hnl
    have hc := bool_not_false hnl
    simp [streamInputWriteFrame, hcl, hc, streamProtocolError, rst_result]
  | headersFrame cf sid hs =>
    simp only [inputLegal] at hnl
    have hc := bool_not_false hnl
    simp [streamInputWriteFrame, hcl, hc, streamProtocolError, rst_result]
  | data sid fl d =>
    simp only [inputLegal] at hnl
    have hc := bool_not_false hnl
    simp [streamInputWriteFrame, hcl, hc, streamProtocolError, rst_result]
  | rstStream cf sid st => simp [inputLegal] at hnl
  | noop cf => simp [streamInputWriteFrame, hcl, streamProtocolError, rst_result]
  | settings cf => simp [streamInputWriteFrame, hcl, streamProtocolError, rst_result]
  | ping cf => simp [streamInputWriteFrame, hcl, streamProtocolError, rst_result]
  | goAway cf => simp [streamInputWriteFrame, hcl, streamProtocolError, rst_result]

/-- On an open receive half, a legal frame goes to HalfStream.WriteFrame. -/
theorem input_admit_path (s : Stream) (f : Frame) (hcl : s.input.chan.isClosed = false)
    (hleg : inputLegal s f = true) :
    streamInputWriteFrame s f = halfWriteFrame s .input f := by
  cases f with
  | synStream cf sid hs =>
    simp only [inputLegal] at hleg
    have hc := bool_not_true hleg
    simp [streamInputWriteFrame, hcl, hc]
  | synReply cf sid hs =>
    simp only [inputLegal] at hleg
    have hc := bool_not_true hleg
    simp [streamInputWriteFrame, hcl, hc]
  | headersFrame cf sid hs =>
    simp only [inputLegal] at hleg
    have hc := bool_not_true hleg
    simp [streamInputWriteFrame, hcl, hc]
  | data sid fl d =>
    simp only [inputLegal] at hleg
    have hc := bool_not_true hleg
    simp [streamInputWriteFrame, hcl, hc]
  | rstStream cf sid st => simp [streamInputWriteFrame, hcl]
  | noop cf => simp [inputLegal] at hleg
  | settings cf => simp [inputLegal] at hleg
  | ping cf => simp [inputLegal] at hleg
  | goAway cf => simp [inputLegal] at hleg

/-- On an open send half, an illegal frame is rejected with a local error
and the state comes back unchanged. -/
theorem output_reject (s : Stream) (f : Frame) (hcl : s.output.chan.isClosed = false)
    (hnl : outputLegal s f = false) :
    ∃ e, streamOutputWriteFrame s f = some (s, some e) := by
  cases f with
  | synStream cf sid hs =>
    simp only [outputLegal] at hnl
    have hc := bool_not_false hnl
    exact ⟨.invalidSynStream, by simp [streamOutputWriteFrame, hcl, hc]⟩
  | synReply cf sid hs =>
    simp only [outputLegal] at hnl
    have hc := bool_not_false hnl
    exact ⟨.invalidSynReply, by simp [streamOutputWriteFrame, hcl, hc]⟩
  | headersFrame cf sid hs =>
    simp only [outputLegal] at hnl
    have hc := bool_not_false hnl
    exact ⟨.invalidFirstFrame, by simp [streamOutputWriteFrame, hcl, hc]⟩
  | data sid fl d =>
    simp only [outputLegal] at hnl
    have hc := bool_not_false hnl
    exact ⟨.invalidFirstFrame, by simp [streamOutputWriteFrame, hcl, hc]⟩
  | rstStream cf sid st => exact ⟨.invalidFrameType, by simp [streamOutputWriteFrame, hcl]⟩
  | noop cf => exact ⟨.invalidFrameType, by simp [streamOutputWriteFrame, hcl]⟩
  | settings cf => exact ⟨.invalidFrameType, by simp [streamOutputWriteFrame, hcl]⟩
  | ping cf => exact ⟨.invalidFrameType, by simp [streamOutputWriteFrame, hcl]⟩
  | goAway cf => exact ⟨.invalidFrameType, by simp [streamOutputWriteFrame, hcl]⟩

/-- On an open send half, a legal frame goes to HalfStream.WriteFrame. -/
theorem output_admit_path (s : Stream) (f : Frame) (hcl : s.output.chan.isClosed = false)
    (hleg : outputLegal s f = true) :
    streamOutputWriteFrame s f = halfWriteFrame s .output f := by
  cases f with
  | synStream cf sid hs =>
    simp only [outputLegal] at hleg
    have hc := bool_not_true hleg
    simp [streamOutputWriteFrame, hcl, hc]
  | synReply cf sid hs =>
    simp only [outputLegal] at hleg
    have hc := bool_not_true hleg
    simp [streamOutputWriteFrame, hcl, hc]
  | headersFrame cf sid hs =>
    simp only [outputLegal] at hleg
    have hc := bool_not_true hleg
    simp [streamOutputWriteFrame, hcl, hc]
  | data sid fl d =>
    simp only [outputLegal] at hleg
    have hc := bool_not_true hleg
    simp [streamOutputWriteFrame, hcl, hc]
  | rstStream cf sid st => simp [outputLegal] at hleg
  | noop cf => simp [outputLegal] at hleg
  | settings cf => simp [outputLegal] at hleg
  | ping cf => simp [outputLegal] at hleg
  | goAway cf => simp [outputLegal] at hleg

/-- The receive validator admits exactly the legal frames, given an open
receive half with spare capacity. -/
theorem inputAdmits_eq (s : Stream) (f : Frame) (he : s.input.chan.err = none)
    (hl : s.input.chan.queue.length < chanCapacity) :
    inputAdmits s f = inputLegal s f := by
  have hcl : s.input.chan.isClosed = false := by simp [ChanFramer.isClosed, he]
  cases hleg : inputLegal s f
  · unfold inputAdmits
    rw [input_drop s f hcl hleg]
    simp
  · obtain ⟨s2, heq, hn⟩ := halfWriteFrame_open s .input f (by simpa using he) (by simpa using hl)
    unfold inputAdmits
    rw [input_admit_path s f hcl hleg, heq]
    simp at hn
    simp [hn]

/-- The send validator admits exactly the legal frames, given an open send
half with spare capacity. -/
theorem outputAdmits_eq (s : Stream) (f : Frame) (he : s.output.chan.err = none)
    (hl : s.output.chan.queue.length < chanCapacity) :
    outputAdmits s f = outputLegal s f := by
  have hcl : s.output.chan.isClosed = false := by simp [ChanFramer.isClosed, he]
  cases hleg : outputLegal s f
  · obtain ⟨e, heq⟩ := output_reject s f hcl hleg
    unfold outputAdmits
    rw [heq]
  · obtain ⟨s2, heq, hn⟩ := halfWriteFrame_open s .output f (by simpa using he) (by simpa using hl)
    unfold outputAdmits
    rw [output_admit_path s f hcl hleg, heq]
    simp at hn
    simp [hn]


/-! Claim theorems. -/

/-- C1 (code bug evaluation): the spec says a frame that is not admitted by
the receive validator triggers an outbound Reset on the send side (status 9
when the half is closed, protocol error when open and illegal). In the
code, Stream.Rst routes the RstStreamFrame through StreamOutput.WriteFrame,
whose switch rejects it, so nothing is ever enqueued: at a stream whose
receive half is closed, an incoming Data frame leaves the whole state
unchanged with a nil error and the send queue empty, and likewise for an
illegal first Data frame on an open half. -/
theorem closed_or_illegal_input_sends_no_reset :
    (streamInputWriteFrame ⟨1, false, ⟨⟨[], some .eof⟩, [], 0⟩, newHalfStream⟩ (.data 1 0 []) =
        some (⟨1, false, ⟨⟨[], some .eof⟩, [], 0⟩, newHalfStream⟩, none) ∧
      (⟨1, false, ⟨⟨[], some .eof⟩, [], 0⟩, newHalfStream⟩ : Stream).output.chan.queue = []) ∧
    (streamInputWriteFrame (newStream 1 false) (.data 1 0 []) =
        some (newStream 1 false, none) ∧
      (newStream 1 false).output.chan.queue = []) :=
  ⟨⟨by decide, rfl⟩, ⟨by decide, rfl⟩⟩

/-- C2: in every stream state the send validator rejects every frame
variant other than SynStream, SynReply, Headers and Data — RstStream
included — with a local error and without admitting the frame, so
Stream.Rst and Stream.ProtocolError always return a non-nil error and
never enqueue anything on the send half. -/
theorem output_rejects_non_stream_frames (s : Stream) (f : Frame) (c : Nat)
    (hf : outputKindAllowed f = false) :
    (∃ e, streamOutputWriteFrame s f = some (s, some e)) ∧
    (∃ e, streamRst s c = some (s, some e)) ∧
    (∃ e, streamProtocolError s = some (s, some e)) := by
  refine ⟨?_, ⟨_, rst_result s c⟩, ⟨_, rst_result s protocolErrorCode⟩⟩
  cases hcl : s.output.chan.isClosed
  · exact output_reject s f hcl (by cases f <;> simp_all [outputKindAllowed, outputLegal])
  · exact ⟨.outputClosed, by simp [streamOutputWriteFrame, hcl]⟩

/-- C2 witness at a fresh local stream and a Ping frame. -/
theorem output_rejects_non_stream_frames_witness :
    (∃ e, streamOutputWriteFrame (newStream 1 true) (.ping ⟨0⟩) = some (newStream 1 true, some e)) ∧
    (∃ e, streamRst (newStream 1 true) 9 = some (newStream 1 true, some e)) ∧
    (∃ e, streamProtocolError (newStream 1 true) = some (newStream 1 true, some e)) :=
  output_rejects_non_stream_frames (newStream 1 true) (.ping ⟨0⟩) 9 (by decide)

/-- C7 counterexample: the claim says session-level frames report finFlag
false regardless of the flags stored in their control-frame header, but a
Noop frame whose header carries the fin bit reports finFlag true. -/
theorem session_frame_finFlag_not_constant_false :
    (Frame.noop ⟨controlFlagFin⟩).getFinFlag = true := by decide

/-- C7 (amended): every session-level control frame (Noop, Settings, Ping,
GoAway) has streamId 0 and no header mapping; its finFlag is derived from
the fin bit of the control-frame header exactly as for stream-bearing
control frames, hence is false whenever that bit is unset. -/
theorem session_frames_accessors (cf : ControlFrameHeader) :
    ((Frame.noop cf).getStreamId = 0 ∧ (Frame.settings cf).getStreamId = 0 ∧
      (Frame.ping cf).getStreamId = 0 ∧ (Frame.goAway cf).getStreamId = 0) ∧
    ((Frame.noop cf).getHeaders = none ∧ (Frame.settings cf).getHeaders = none ∧
      (Frame.ping cf).getHeaders = none ∧ (Frame.goAway cf).getHeaders = none) ∧
    ((Frame.noop cf).getFinFlag = ((cf.flags &&& controlFlagFin) != 0) ∧
      (Frame.settings cf).getFinFlag = ((cf.flags &&& controlFlagFin) != 0) ∧
      (Frame.ping cf).getFinFlag = ((cf.flags &&& controlFlagFin) != 0) ∧
      (Frame.goAway cf).getFinFlag = ((cf.flags &&& controlFlagFin) != 0)) ∧
    (cf.flags &&& controlFlagFin = 0 →
      (Frame.noop cf).getFinFlag = false ∧ (Frame.settings cf).getFinFlag = false ∧
      (Frame.ping cf).getFinFlag = false ∧ (Frame.goAway cf).getFinFlag = false) := by
  refine ⟨⟨rfl, rfl, rfl, rfl⟩, ⟨rfl, rfl, rfl, rfl⟩, ⟨rfl, rfl, rfl, rfl⟩, fun h0 => ?_⟩
  simp [Frame.getFinFlag, h0]

/-- C7 witness at a zero-flag control-frame header. -/
theorem session_frames_accessors_witness :
    (Frame.noop ⟨0⟩).getFinFlag = false ∧ (Frame.settings ⟨0⟩).getFinFlag = false ∧
    (Frame.ping ⟨0⟩).getFinFlag = false ∧ (Frame.goAway ⟨0⟩).getFinFlag = false :=
  (session_frames_accessors ⟨0⟩).2.2.2 (by decide)

/-- C9: the receive validator StreamInput.WriteFrame never returns a
non-nil error: whenever the call returns (does not block), the returned
error is nil, whether the frame was admitted, dropped, or silently
ignored. -/
theorem streamInput_never_errors (s : Stream) (f : Frame) (s2 : Stream) (e : Option GoError)
    (h : streamInputWriteFrame s f = some (s2, e)) : e = none := by
  cases hcl : s.input.chan.isClosed
  · have he : s.input.chan.err = none := by
      cases hE : s.input.chan.err with
      | none => rfl
      | some x => simp [ChanFramer.isClosed, hE] at hcl
    cases hleg : inputLegal s f
    · rw [input_drop s f hcl hleg] at h
      simp only [Option.some.injEq, Prod.mk.injEq] at h
      exact h.2.symm
    · rw [input_admit_path s f hcl hleg] at h
      exact halfWriteFrame_open_no_error s .input f s2 e (by simpa using he) h
  · cases hrst : f.isRst
    · simp only [streamInputWriteFrame, hcl, hrst, if_true, Bool.false_eq_true, if_false,
        rst_result] at h
      simp only [Option.some.injEq, Prod.mk.injEq] at h
      exact h.2.symm
    · simp only [streamInputWriteFrame, hcl, hrst, if_true] at h
      simp only [Option.some.injEq, Prod.mk.injEq] at h
      exact h.2.symm

/-- C9 witness: a Data frame arriving on a closed receive half returns nil. -/
theorem streamInput_never_errors_witness : (none : Option GoError) = none :=
  streamInput_never_errors ⟨1, false, ⟨⟨[], some .eof⟩, [], 0⟩, newHalfStream⟩ (.data 1 0 [])
    ⟨1, false, ⟨⟨[], some .eof⟩, [], 0⟩, newHalfStream⟩ none (by decide)

/-- C10: Stream.Syn and Stream.Reply accept an absent (nil) headers
argument by substituting an empty header mapping: the nil-headers call
coincides with the empty-headers call and sends a frame carrying an empty
header mapping; on a fresh locally initiated stream the enqueued
SynStream frame indeed carries the empty mapping. -/
theorem syn_reply_nil_headers (s : Stream) (fin : Bool) :
    streamSyn s none fin =
      streamOutputWriteFrame s (.synStream ⟨if fin then controlFlagFin else 0⟩ s.id []) ∧
    streamReply s none fin =
      streamOutputWriteFrame s (.synReply ⟨if fin then controlFlagFin else 0⟩ s.id []) ∧
    streamSyn s none fin = streamSyn s (some []) fin ∧
    streamReply s none fin = streamReply s (some []) fin ∧
    (∀ i : Nat, streamSyn (newStream i true) none false =
      some ({ newStream i true with output := ⟨⟨[.synStream ⟨0⟩ i []], none⟩, [], 1⟩ }, none)) := by
  refine ⟨rfl, rfl, rfl, rfl, fun i => ?_⟩
  simp [streamSyn, streamOutputWriteFrame, newStream, newHalfStream, ChanFramer.isClosed,
    halfWriteFrame, ChanFramer.writeFrame, chanCapacity, Stream.setHalf, Stream.getHalf,
    Frame.getFinFlag, Frame.getHeaders, Frame.isRst, updateHeaders, controlFlagFin]


/-- C3: on open halves with spare capacity, the receive validator admits
an OpenStream iff the counter is 0 and the stream is not locally
initiated, a Reply iff the counter is 0 and it is locally initiated,
Headers or Data iff the counter is positive, and a Reset always; the send
validator admits an OpenStream iff the counter is 0 and the stream is
locally initiated, a Reply iff the counter is 0 and it is not, and
Headers or Data iff the counter is positive. -/
theorem open_half_admission (s : Stream)
    (hie : s.input.chan.err = none) (hil : s.input.chan.queue.length < chanCapacity)
    (hoe : s.output.chan.err = none) (hol : s.output.chan.queue.length < chanCapacity) :
    (∀ (cf : ControlFrameHeader) (sid : Nat) (h : Headers),
      inputAdmits s (.synStream cf sid h) = (s.input.nFrames == 0 && !s.isLocal)) ∧
    (∀ (cf : ControlFrameHeader) (sid : Nat) (h : Headers),
      inputAdmits s (.synReply cf sid h) = (s.input.nFrames == 0 && s.isLocal)) ∧
    (∀ (cf : ControlFrameHeader) (sid : Nat) (h : Headers),
      inputAdmits s (.headersFrame cf sid h) = (s.input.nFrames != 0)) ∧
    (∀ (sid fl : Nat) (d : List Nat),
      inputAdmits s (.data sid fl d) = (s.input.nFrames != 0)) ∧
    (∀ (cf : ControlFrameHeader) (sid st : Nat),
      inputAdmits s (.rstStream cf sid st) = true) ∧
    (∀ (cf : ControlFrameHeader) (sid : Nat) (h : Headers),
      outputAdmits s (.synStream cf sid h) = (s.output.nFrames == 0 && s.isLocal)) ∧
    (∀ (cf : ControlFrameHeader) (sid : Nat) (h : Headers),
      outputAdmits s (.synReply cf sid h) = (s.output.nFrames == 0 && !s.isLocal)) ∧
    (∀ (cf : ControlFrameHeader) (sid : Nat) (h : Headers),
      outputAdmits s (.headersFrame cf sid h) = (s.output.nFrames != 0)) ∧
    (∀ (sid fl : Nat) (d : List Nat),
      outputAdmits s (.data sid fl d) = (s.output.nFrames != 0)) := by
  refine ⟨fun cf sid h => ?_, fun cf sid h => ?_, fun cf sid h => ?_, fun sid fl d => ?_,
    fun cf sid st => ?_, fun cf sid h => ?_, fun cf sid h => ?_, fun cf sid h => ?_,
    fun sid fl d => ?_⟩
  · rw [inputAdmits_eq s _ hie hil]
    cases hb : (s.input.nFrames == 0) <;> cases hc : s.isLocal <;>
      simp [inputLegal, bne, hb, hc]
  · rw [inputAdmits_eq s _ hie hil]
    cases hb : (s.input.nFrames == 0) <;> cases hc : s.isLocal <;>
      simp [inputLegal, bne, hb, hc]
  · rw [inputAdmits_eq s _ hie hil]
    cases hb : (s.input.nFrames == 0) <;> simp [inputLegal, bne, hb]
  · rw [inputAdmits_eq s _ hie hil]
    cases hb : (s.input.nFrames == 0) <;> simp [inputLegal, bne, hb]
  · rw [inputAdmits_eq s _ hie hil]
    rfl
  · rw [outputAdmits_eq s _ hoe hol]
    cases hb : (s.output.nFrames == 0) <;> cases hc : s.isLocal <;>
      simp [outputLegal, bne, hb, hc]
  · rw [outputAdmits_eq s _ hoe hol]
    cases hb : (s.output.nFrames == 0) <;> cases hc : s.isLocal <;>
      simp [outputLegal, bne, hb, hc]
  · rw [outputAdmits_eq s _ hoe hol]
    cases hb : (s.output.nFrames == 0) <;> simp [outputLegal, bne, hb]
  · rw [outputAdmits_eq s _ hoe hol]
    cases hb : (s.output.nFrames == 0) <;> simp [outputLegal, bne, hb]

/-- C3 witness at a fresh remotely initiated stream. -/
theorem open_half_admission_witness :
    inputAdmits (newStream 1 false) (.synStream ⟨0⟩ 1 []) =
      ((newStream 1 false).input.nFrames == 0 && !(newStream 1 false).isLocal) :=
  (open_half_admission (newStream 1 false) rfl (by decide) rfl (by decide)).1 ⟨0⟩ 1 []

/-- C4: a frame admitted by HalfStream.WriteFrame is counted (the counter
of the written half advances by one); a non-Reset frame with the fin flag
set closes that half while leaving the other half entirely unchanged; a
Reset closes both halves of the owning stream. -/
theorem admitted_frame_close_semantics (s : Stream) (sd : Side) (f : Frame) (s2 : Stream)
    (h : halfWriteFrame s sd f = some (s2, none)) :
    (s2.getHalf sd).nFrames = (s.getHalf sd).nFrames + 1 ∧
    (f.isRst = false → f.getFinFlag = true →
      (s2.getHalf sd).chan.isClosed = true ∧ s2.getHalf sd.other = s.getHalf sd.other) ∧
    (f.isRst = true →
      s2.input.chan.isClosed = true ∧ s2.output.chan.isClosed = true) := by
  rcases hw : (s.getHalf sd).chan.writeFrame f with _ | ⟨ch2, e2⟩
  · simp [halfWriteFrame, hw] at h
  · cases e2 with
    | some e => simp [halfWriteFrame, hw] at h
    | none =>
      simp only [halfWriteFrame, hw] at h
      simp only [Option.some.injEq, Prod.mk.injEq, and_true] at h
      subst h
      refine ⟨?_, ?_, ?_⟩
      · split
        · rw [close_getHalf_nFrames]
          split <;> split <;> simp
        · split <;> split <;> simp
      · intro hrst hfin
        simp only [hrst, Bool.false_eq_true, if_false, hfin, if_true]
        constructor
        · split <;> simp [getHalf_setHalf, close_isClosed]
        · split <;> simp [getHalf_setHalf_other]
      · intro hrst
        simp only [hrst, if_true]
        exact ⟨stream_close_input_isClosed _, stream_close_output_isClosed _⟩

/-- C4 witness: a fin Data frame admitted on the receive half. -/
theorem admitted_frame_close_semantics_witness :
    ((⟨2, false, ⟨⟨[.data 2 1 [7]], some .eof⟩, [], 2⟩, newHalfStream⟩ : Stream).getHalf
        .input).nFrames =
      ((⟨2, false, ⟨⟨[], none⟩, [], 1⟩, newHalfStream⟩ : Stream).getHalf .input).nFrames + 1 ∧
    ((Frame.data 2 1 [7]).isRst = false → (Frame.data 2 1 [7]).getFinFlag = true →
      ((⟨2, false, ⟨⟨[.data 2 1 [7]], some .eof⟩, [], 2⟩, newHalfStream⟩ : Stream).getHalf
          .input).chan.isClosed = true ∧
        (⟨2, false, ⟨⟨[.data 2 1 [7]], some .eof⟩, [], 2⟩, newHalfStream⟩ : Stream).getHalf
            Side.input.other =
          (⟨2, false, ⟨⟨[], none⟩, [], 1⟩, newHalfStream⟩ : Stream).getHalf Side.input.other) ∧
    ((Frame.data 2 1 [7]).isRst = true →
      (⟨2, false, ⟨⟨[.data 2 1 [7]], some .eof⟩, [], 2⟩,
          newHalfStream⟩ : Stream).input.chan.isClosed = true ∧
        (⟨2, false, ⟨⟨[.data 2 1 [7]], some .eof⟩, [], 2⟩,
            newHalfStream⟩ : Stream).output.chan.isClosed = true) :=
  admitted_frame_close_semantics ⟨2, false, ⟨⟨[], none⟩, [], 1⟩, newHalfStream⟩ .input
    (.data 2 1 [7]) ⟨2, false, ⟨⟨[.data 2 1 [7]], some .eof⟩, [], 2⟩, newHalfStream⟩ (by decide)

/-- C5: the bounded frame channel is a strict FIFO (three writes from an
empty open channel are read back in order); setError and close are
one-shot and idempotent, never overwriting the first recorded terminal
condition; once the terminal condition is set, reads of the drained queue
return it with no frame forever, writes return it without enqueuing, and
isClosed reports true regardless of the queue contents. -/
theorem chanFramer_fifo_and_terminal :
    (∀ f1 f2 f3 : Frame,
      ChanFramer.writeFrame ⟨[], none⟩ f1 = some (⟨[f1], none⟩, none) ∧
      ChanFramer.writeFrame ⟨[f1], none⟩ f2 = some (⟨[f1, f2], none⟩, none) ∧
      ChanFramer.writeFrame ⟨[f1, f2], none⟩ f3 = some (⟨[f1, f2, f3], none⟩, none) ∧
      ChanFramer.readFrame ⟨[f1, f2, f3], none⟩ = some (⟨[f2, f3], none⟩, some f1, none) ∧
      ChanFramer.readFrame ⟨[f2, f3], none⟩ = some (⟨[f3], none⟩, some f2, none) ∧
      ChanFramer.readFrame ⟨[f3], none⟩ = some (⟨[], none⟩, some f3, none)) ∧
    (∀ (cf : ChanFramer) (e1 e2 : GoError),
      ((cf.setError e1).setError e2).err = (cf.setError e1).err) ∧
    (∀ (cf : ChanFramer) (e : GoError), cf.isClosed = true →
      cf.setError e = cf ∧ cf.close = cf) ∧
    (∀ (cf : ChanFramer) (e : GoError), cf.err = some e → cf.queue = [] →
      cf.readFrame = some (cf, none, some e)) ∧
    (∀ (cf : ChanFramer) (e : GoError) (f : Frame), cf.err = some e →
      cf.writeFrame f = some (cf, some e)) ∧
    (∀ (cf : ChanFramer) (e : GoError), cf.err = some e → cf.isClosed = true) := by
  refine ⟨fun f1 f2 f3 => ⟨?_, ?_, ?_, rfl, rfl, rfl⟩, fun cf e1 e2 => ?_,
    fun cf e hcl => ?_, fun cf e he hq => ?_, fun cf e f he => ?_, fun cf e he => ?_⟩
  · simp [ChanFramer.writeFrame, chanCapacity]
  · simp [ChanFramer.writeFrame, chanCapacity]
  · simp [ChanFramer.writeFrame, chanCapacity]
  · cases he : cf.err <;> simp [ChanFramer.setError, he]
  · have hs : cf.err.isSome = true := by simpa [ChanFramer.isClosed] using hcl
    exact ⟨by simp [ChanFramer.setError, hs], by simp [ChanFramer.close, ChanFramer.setError, hs]⟩
  · simp [ChanFramer.readFrame, he, hq]
  · simp [ChanFramer.writeFrame, he]
  · simp [ChanFramer.isClosed, he]

/-- C5 witness: writing to a closed channel returns its terminal
condition without enqueuing. -/
theorem chanFramer_fifo_and_terminal_witness :
    ChanFramer.writeFrame ⟨[], some .eof⟩ (.noop ⟨0⟩) = some (⟨[], some .eof⟩, some .eof) :=
  chanFramer_fifo_and_terminal.2.2.2.2.1 ⟨[], some .eof⟩ .eof (.noop ⟨0⟩) rfl

/-- C6: UpdateHeaders is strictly additive per key: for a new mapping with
distinct keys, the merged value list at every key is the old list followed
by the new list in order; in particular merging the mapping a to 1 and
then the mapping a to 2, b to 3 into an empty mapping yields a to 1, 2 and
b to 3. -/
theorem updateHeaders_additive :
    (∀ (h nh : Headers) (key : String), (nh.map Prod.fst).Nodup →
      headerGet (updateHeaders h nh) key = headerGet h key ++ headerGet nh key) ∧
    updateHeaders (updateHeaders [] [("a", ["1"])]) [("a", ["2"]), ("b", ["3"])] =
      [("a", ["1", "2"]), ("b", ["3"])] :=
  ⟨fun h nh key hnd => headerGet_updateHeaders nh h key hnd, by decide⟩

/-- C6 witness: a concrete additive merge on one key. -/
theorem updateHeaders_additive_witness :
    headerGet (updateHeaders [("k", ["0"])] [("k", ["9"])]) "k" = ["0", "9"] := by
  have h := updateHeaders_additive.1 [("k", ["0"])] [("k", ["9"])] "k" (by decide)
  simpa using h

/-- C8: Copy over a reader that yields a finite frame list and then a
terminal condition: with an absent writer every frame is discarded (no
writer state exists to receive writes) and the result is success exactly
when the terminal condition is end-of-stream, otherwise that condition;
with an always-succeeding writer every frame is forwarded in order; a
write error is returned immediately regardless of the frames not yet
read. -/
theorem copy_forwarding :
    (∀ (frames : List Frame) (term : GoError),
      Copy none frames term = (none, if term = .eof then none else some term)) ∧
    (∀ (frames : List Frame) (term : GoError) (w : ScriptWriter), w.responses = [] →
      Copy (some w) frames term =
        (some { responses := [], written := w.written ++ frames },
          if term = .eof then none else some term)) ∧
    (∀ (f : Frame) (rest : List Frame) (term : GoError) (w w2 : ScriptWriter) (e : GoError),
      w.write f = (w2, some e) → Copy (some w) (f :: rest) term = (some w2, some e)) := by
  refine ⟨?_, ?_, ?_⟩
  · intro frames term
    induction frames with
    | nil => rfl
    | cons f rest ih => simpa [Copy] using ih
  · intro frames term w hw
    induction frames generalizing w with
    | nil =>
      obtain ⟨resp, written⟩ := w
      simp only at hw
      subst hw
      simp [Copy]
    | cons f rest ih =>
      obtain ⟨resp, written⟩ := w
      simp only at hw
      subst hw
      have hstep : Copy (some ⟨[], written⟩) (f :: rest) term =
          Copy (some ⟨[], written ++ [f]⟩) rest term := by
        simp [Copy, ScriptWriter.write]
      rw [hstep, ih ⟨[], written ++ [f]⟩ rfl]
      simp
  · intro f rest term w w2 e hw
    simp [Copy, hw]

/-- C8 witness: an always-succeeding writer receives both frames in
order and the copy ends in success on end-of-stream. -/
theorem copy_forwarding_witness :
    Copy (some ⟨[], []⟩) [Frame.ping ⟨0⟩, Frame.noop ⟨0⟩] .eof =
      (some ⟨[], [Frame.ping ⟨0⟩, Frame.noop ⟨0⟩]⟩, none) := by
  have h := copy_forwarding.2.1 [Frame.ping ⟨0⟩, Frame.noop ⟨0⟩] .eof ⟨[], []⟩ rfl
  simpa using h

end Spdy
